import Mathlib

/-!
Shallow embedding of the Fetch Controller of `mce_scraper.py`
(`MCECompoundScraper`): the retry/backoff loop `fetch_page`, the soft rate
throttle `_check_rate_limit`, user-agent rotation `_rotate_user_agent`, the
pagination loop `scrape_multiple_pages`, and the per-item record building and
validity filter of `parse_compounds`.

Network nondeterminism is made explicit: an oracle `Nat → AttemptResult`
gives the outcome of each HTTP attempt, an oracle `Nat → ℚ` gives the elapsed
session time observed before each attempt, and an oracle `Nat → Nat` gives
the random draw used to rotate the user agent.  Observable side effects
(throttle sleeps, issued requests, backoff sleeps) are collected in an event
trace.  Durations are rationals (seconds).
-/

namespace MceScraper

/-- Outcome of one call to `session.get` inside `fetch_page`: an HTTP
response carrying a status code and a body, or one of the three exception
classes the code catches (`requests.exceptions.Timeout`,
`requests.exceptions.ConnectionError`, `requests.RequestException`). -/
inductive AttemptResult where
  | resp (status : Nat) (body : String)
  | timeout
  | connError
  | reqError
  deriving DecidableEq, Repr

/-- Observable side effects of `fetch_page`: the flat throttle sleep of
`_check_rate_limit`, an HTTP request issued with a given user agent, and a
backoff sleep from the retry branches. -/
inductive Event where
  | throttle (seconds : ℚ)
  | request (ua : String)
  | backoff (seconds : ℚ)
  deriving DecidableEq, Repr

/-- Translation of `_check_rate_limit` (lines 75-82): with `elapsed` seconds
since session start and `count` requests so far, if the elapsed time is
positive and the observed rate `count / elapsed` exceeds 0.5 requests per
second, sleep a flat 2 seconds; otherwise do nothing.  Returned as the list
of events this check produces. -/
def check_rate_limit (count : Nat) (elapsed : ℚ) : List Event :=
  if 0 < elapsed ∧ (1 : ℚ) / 2 < (count : ℚ) / elapsed then
    [Event.throttle 2]
  else
    []

/-- Translation of `_rotate_user_agent` (lines 71-73): `random.choice` picks
a uniformly random element of the pool; the random draw is modelled as a
natural number reduced modulo the pool size. -/
def rotate_user_agent (pool : List String) (draw : Nat) : String :=
  pool.getD (draw % pool.length) ""

/-- The user-agent pool from `MCECompoundScraper.__init__` (lines 58-63). -/
def userAgents : List String :=
  ["Mozilla/5.0 (Windows NT 10.0; Win64; x64) AppleWebKit/537.36 (KHTML, like Gecko) Chrome/120.0.0.0 Safari/537.36",
   "Mozilla/5.0 (Windows NT 10.0; Win64; x64; rv:121.0) Gecko/20100101 Firefox/121.0",
   "Mozilla/5.0 (Macintosh; Intel Mac OS X 10_15_7) AppleWebKit/537.36 (KHTML, like Gecko) Chrome/120.0.0.0 Safari/537.36",
   "Mozilla/5.0 (X11; Linux x86_64) AppleWebKit/537.36 (KHTML, like Gecko) Chrome/120.0.0.0 Safari/537.36"]

/-- Configuration and environment of one `fetch_page` call: the scraper's
`max_retries`, its user-agent pool, and the three oracles resolving the
nondeterminism of attempt number `i`: the network outcome, the elapsed
session time observed by the throttle check, and the random draw for
user-agent rotation. -/
structure FetchCfg where
  maxRetries : Nat
  pool : List String
  oracle : Nat → AttemptResult
  elapsed : Nat → ℚ
  uaDraw : Nat → Nat

/-- Translation of the `for attempt in range(self.max_retries)` loop of
`fetch_page` (lines 94-142), recursing on the remaining number of loop
iterations (`fuel`), with `attempt` the current 0-based attempt index and
`count` the current `self.request_count`.  Returns the function result
(`some body` for a 200 response, `none` for the 403 return and for the
fall-through `return None` at line 142), the final `request_count`, and the
event trace.  Per iteration: run `_check_rate_limit`, rotate the user agent,
issue the request; if `session.get` returns a response, increment the
counter, then branch on the status: 200 returns the body; 429 sleeps
`60 * (attempt + 1)` and retries; 403 returns `none` at once; any other
status calls `raise_for_status`, which raises exactly when the status is in
[400, 600) — the raised `HTTPError` is caught by the generic
`RequestException` handler, sleeping `5 * (attempt + 1)` unless this was the
last attempt — and otherwise falls through to the next attempt with no
sleep.  If `session.get` itself raises, the counter is not incremented and
the matching handler sleeps `5 * (attempt + 1)` (timeout), `10 * (attempt + 1)`
(connection error) or `5 * (attempt + 1)` (other request error), each only
when this was not the last attempt. -/
def fetchLoop (cfg : FetchCfg) : Nat → Nat → Nat → Option String × Nat × List Event
  | 0, _, count => (none, count, [])
  | fuel + 1, attempt, count =>
    let pre := check_rate_limit count (cfg.elapsed attempt) ++
      [Event.request (rotate_user_agent cfg.pool (cfg.uaDraw attempt))]
    match cfg.oracle attempt with
    | AttemptResult.resp status body =>
      if status = 200 then
        (some body, count + 1, pre)
      else if status = 429 then
        let rest := fetchLoop cfg fuel (attempt + 1) (count + 1)
        (rest.1, rest.2.1,
          pre ++ [Event.backoff ((60 : ℚ) * ((attempt : ℚ) + 1))] ++ rest.2.2)
      else if status = 403 then
        (none, count + 1, pre)
      else if 400 ≤ status ∧ status < 600 then
        let slp := if attempt < cfg.maxRetries - 1 then
          [Event.backoff ((5 : ℚ) * ((attempt : ℚ) + 1))] else []
        let rest := fetchLoop cfg fuel (attempt + 1) (count + 1)
        (rest.1, rest.2.1, pre ++ slp ++ rest.2.2)
      else
        let rest := fetchLoop cfg fuel (attempt + 1) (count + 1)
        (rest.1, rest.2.1, pre ++ rest.2.2)
    | AttemptResult.timeout =>
      let slp := if attempt < cfg.maxRetries - 1 then
        [Event.backoff ((5 : ℚ) * ((attempt : ℚ) + 1))] else []
      let rest := fetchLoop cfg fuel (attempt + 1) count
      (rest.1, rest.2.1, pre ++ slp ++ rest.2.2)
    | AttemptResult.connError =>
      let slp := if attempt < cfg.maxRetries - 1 then
        [Event.backoff ((10 : ℚ) * ((attempt : ℚ) + 1))] else []
      let rest := fetchLoop cfg fuel (attempt + 1) count
      (rest.1, rest.2.1, pre ++ slp ++ rest.2.2)
    | AttemptResult.reqError =>
      let slp := if attempt < cfg.maxRetries - 1 then
        [Event.backoff ((5 : ℚ) * ((attempt : ℚ) + 1))] else []
      let rest := fetchLoop cfg fuel (attempt + 1) count
      (rest.1, rest.2.1, pre ++ slp ++ rest.2.2)

/-- `fetch_page` run from request counter `count`: the loop starts at
attempt 0 and runs at most `max_retries` iterations. -/
def fetch_page (cfg : FetchCfg) (count : Nat) : Option String × Nat × List Event :=
  fetchLoop cfg cfg.maxRetries 0 count

/-- The backoff sleeps of a trace, in order. -/
def backoffSleeps (es : List Event) : List ℚ :=
  es.filterMap fun e =>
    match e with
    | Event.backoff q => some q
    | _ => none

/-- The user agents of the requests issued in a trace, in order. -/
def requestUAs (es : List Event) : List String :=
  es.filterMap fun e =>
    match e with
    | Event.request ua => some ua
    | _ => none

/-- Number of HTTP requests issued in a trace. -/
def requestsIssued (es : List Event) : Nat :=
  (requestUAs es).length

/-- True of the attempt results on which the `fetch_page` loop moves on to
the next attempt rather than returning: every result except a response with
status 200 (success) or 403 (immediate `return None`). -/
def nonTerminal (r : AttemptResult) : Prop :=
  match r with
  | AttemptResult.resp status _ => status ≠ 200 ∧ status ≠ 403
  | _ => True

/-- Whether `session.get` returned an HTTP response (of any status) rather
than raising: exactly the attempts on which line 105 `self.request_count += 1`
executes. -/
def isHttpResp : AttemptResult → Bool
  | AttemptResult.resp _ _ => true
  | _ => false

/-- Number of the first `n` attempts of oracle `o` that received an HTTP
response. -/
def respCount (o : Nat → AttemptResult) : Nat → Nat
  | 0 => 0
  | n + 1 => (if isHttpResp (o 0) then 1 else 0) + respCount (fun i => o (i + 1)) n

/-! ### Pagination: `scrape_multiple_pages` -/

/-- A compound record: the `compound_data` dict of `parse_compounds`, as an
association list (each key is added at most once). -/
abbrev Record := List (String × String)

/-- Outcome of one `self.scrape_page(page_num)` call as seen by the loop of
`scrape_multiple_pages`: a list of records, a `KeyboardInterrupt` raised
while processing the page, or any other exception. -/
inductive PageOutcome where
  | ok (records : List Record)
  | interrupted
  | failed
  deriving Repr

/-- Translation of the `for page_num in range(start_page, end_page + 1)`
loop of `scrape_multiple_pages` (lines 272-287), recursing on the number of
remaining pages (`fuel`).  `pr` resolves each page's outcome and `dd` gives
the `random.uniform` draw of `_random_delay` after each page.  Returns the
accumulated `all_compounds` list and the trace of inter-page politeness
delays.  A successful page extends the accumulator and, when it is not the
last page, is followed by a politeness delay; `KeyboardInterrupt` breaks the
loop returning what accumulated so far; any other exception skips the page
(and its delay) and continues. -/
def scrapeLoop (pr : Nat → PageOutcome) (dd : Nat → ℚ) (endPage : Nat) :
    Nat → Nat → List Record × List ℚ
  | 0, _ => ([], [])
  | fuel + 1, page =>
    match pr page with
    | PageOutcome.interrupted => ([], [])
    | PageOutcome.failed => scrapeLoop pr dd endPage fuel (page + 1)
    | PageOutcome.ok rs =>
      let rest := scrapeLoop pr dd endPage fuel (page + 1)
      (rs ++ rest.1, if page < endPage then dd page :: rest.2 else rest.2)

/-- `scrape_multiple_pages(start_page, end_page)`: iterate the page loop
over `range(start_page, end_page + 1)`. -/
def scrape_multiple_pages (pr : Nat → PageOutcome) (dd : Nat → ℚ)
    (startPage endPage : Nat) : List Record × List ℚ :=
  scrapeLoop pr dd endPage (endPage + 1 - startPage) startPage

/-! ### Parsing: `parse_compounds` -/

/-- The tags `parse_compounds` looks up in one `<li>` item (lines 162-220),
each `Option` mirroring one `if` on a found tag:
* `catNoTag`: the `dt.dnr_pro_list_cat` tag, and inside it an optional
  `<a>` link carrying (text, href);
* `nameTag`: the `th.dnr_pro_list_name` tag, carrying an optional `<strong>`
  text and an optional `p#list-name-cn` tag with an optional `<a>` text;
* `casTag`, `purityTag`, `briefTag`: the stripped text of the corresponding
  tag when present;
* `structureTag`: the `dt.dnr_pro_list_structure` tag, and inside it an
  optional `<img>` carrying its `src` attribute (defaulting to `""`). -/
structure PageItem where
  catNoTag : Option (Option (String × String))
  nameTag : Option (Option String × Option (Option String))
  casTag : Option String
  purityTag : Option String
  briefTag : Option String
  structureTag : Option (Option String)

/-- Translation of the `compound_data` construction of `parse_compounds`
(lines 162-220) for one item: `catalog_no` and, when the href starts with
`/`, `url = base_url + href`; `name_en` from the `<strong>` tag and
`name_cn` from the Chinese-name link; `cas_no` and `purity` and
`description` only when their stripped text is nonempty; `structure_image`
from the `<img>` src, prefixed with `https:` when it starts with `//`. -/
def build_compound_data (baseUrl : String) (item : PageItem) : Record :=
  let d0 : Record := []
  let d1 :=
    match item.catNoTag with
    | some (some (text, href)) =>
      let d := d0 ++ [("catalog_no", text)]
      if href.startsWith "/" then d ++ [("url", baseUrl ++ href)] else d
    | _ => d0
  let d2 :=
    match item.nameTag with
    | some (strongTag, cnNameTag) =>
      let d :=
        match strongTag with
        | some s => d1 ++ [("name_en", s)]
        | none => d1
      match cnNameTag with
      | some (some cn) => d ++ [("name_cn", cn)]
      | _ => d
    | none => d1
  let d3 :=
    match item.casTag with
    | some t => if t ≠ "" then d2 ++ [("cas_no", t)] else d2
    | none => d2
  let d4 :=
    match item.purityTag with
    | some t => if t ≠ "" then d3 ++ [("purity", t)] else d3
    | none => d3
  let d5 :=
    match item.briefTag with
    | some t => if t ≠ "" then d4 ++ [("description", t)] else d4
    | none => d4
  match item.structureTag with
  | some (some src) =>
    let src := if src.startsWith "//" then "https:" ++ src else src
    d5 ++ [("structure_image", src)]
  | _ => d5

/-- Translation of the item loop and validity floor of `parse_compounds`
(lines 162-226): build `compound_data` for every item and keep exactly those
with `len(compound_data) > 2`. -/
def parse_compounds (baseUrl : String) (items : List PageItem) : List Record :=
  (items.map (build_compound_data baseUrl)).filter fun r => 2 < r.length

/-- The scraper's base URL (line 41). -/
def base_url : String := "https://www.medchemexpress.cn"

/-! ### Session-level runs -/

/-- The final request counter after a sequence of `fetch_page` calls on one
session, starting from counter `count`. -/
def sessionRun (calls : List FetchCfg) (count : Nat) : Nat :=
  calls.foldl (fun c cfg => (fetch_page cfg c).2.1) count

/-! ### Concrete runs used as witnesses and counterexamples -/

/-- A run in which every attempt receives HTTP 429. -/
def cfg429run : FetchCfg :=
  { maxRetries := 3, pool := userAgents,
    oracle := fun _ => AttemptResult.resp 429 "",
    elapsed := fun _ => 0, uaDraw := fun _ => 0 }

/-- A run whose first attempt times out and whose second attempt receives
HTTP 200 with body `"ok"`, with `max_retries = 2`. -/
def cfgTimeoutThen200 : FetchCfg :=
  { maxRetries := 2, pool := userAgents,
    oracle := fun i => if i = 0 then AttemptResult.timeout else AttemptResult.resp 200 "ok",
    elapsed := fun _ => 0, uaDraw := fun _ => 0 }

/-- A run in which every attempt receives HTTP 200 with body `"ok"`. -/
def cfg200run : FetchCfg :=
  { maxRetries := 3, pool := userAgents,
    oracle := fun _ => AttemptResult.resp 200 "ok",
    elapsed := fun _ => 0, uaDraw := fun _ => 0 }

/-- A run in which every attempt receives HTTP 403. -/
def cfg403run : FetchCfg :=
  { maxRetries := 3, pool := userAgents,
    oracle := fun _ => AttemptResult.resp 403 "",
    elapsed := fun _ => 0, uaDraw := fun _ => 0 }

/-- A run in which every attempt receives HTTP 204 (a 2xx status other
than 200). -/
def cfg204run : FetchCfg :=
  { maxRetries := 3, pool := userAgents,
    oracle := fun _ => AttemptResult.resp 204 "",
    elapsed := fun _ => 0, uaDraw := fun _ => 0 }

/-- One single-record page result per page number, used in concrete runs. -/
def recsW (n : Nat) : List Record := [[("page", toString n)]]

/-- A page oracle on which every page succeeds. -/
def prOk : Nat → PageOutcome := fun n => PageOutcome.ok (recsW n)

/-- A page oracle on which page 2 raises `KeyboardInterrupt` and every other
page succeeds. -/
def prInterrupt : Nat → PageOutcome := fun n =>
  if n = 2 then PageOutcome.interrupted else PageOutcome.ok (recsW n)

/-- A page oracle on which page 2 raises a generic exception and every other
page succeeds. -/
def prFailed : Nat → PageOutcome := fun n =>
  if n = 2 then PageOutcome.failed else PageOutcome.ok (recsW n)

/-- A page item whose record gets exactly 2 populated fields (`name_en`
and `name_cn`). -/
def itemTwoFields : PageItem :=
  { catNoTag := none, nameTag := some (some "Foo", some (some "Bar")), casTag := none,
    purityTag := none, briefTag := none, structureTag := none }

/-- A page item whose record gets exactly 3 populated fields (`name_en`,
`name_cn` and `structure_image`). -/
def itemThreeFields : PageItem :=
  { catNoTag := none, nameTag := some (some "Foo", some (some "Bar")), casTag := none,
    purityTag := none, briefTag := none, structureTag := some (some "x.png") }

/-! ### Trace helper lemmas -/

theorem backoffSleeps_append (l l' : List Event) :
    backoffSleeps (l ++ l') = backoffSleeps l ++ backoffSleeps l' :=
  List.filterMap_append l l' _

theorem requestUAs_append (l l' : List Event) :
    requestUAs (l ++ l') = requestUAs l ++ requestUAs l' :=
  List.filterMap_append l l' _

theorem requestsIssued_append (l l' : List Event) :
    requestsIssued (l ++ l') = requestsIssued l + requestsIssued l' := by
  simp [requestsIssued, requestUAs_append]

theorem backoffSleeps_check_rate_limit (c : Nat) (e : ℚ) :
    backoffSleeps (check_rate_limit c e) = [] := by
  unfold check_rate_limit
  split <;> rfl

theorem requestsIssued_check_rate_limit (c : Nat) (e : ℚ) :
    requestsIssued (check_rate_limit c e) = 0 := by
  unfold check_rate_limit
  split <;> rfl

theorem backoffSleeps_cons_throttle (q : ℚ) (l : List Event) :
    backoffSleeps (Event.throttle q :: l) = backoffSleeps l := rfl

theorem backoffSleeps_cons_request (ua : String) (l : List Event) :
    backoffSleeps (Event.request ua :: l) = backoffSleeps l := rfl

theorem backoffSleeps_cons_backoff (q : ℚ) (l : List Event) :
    backoffSleeps (Event.backoff q :: l) = q :: backoffSleeps l := rfl

theorem backoffSleeps_nil : backoffSleeps [] = [] := rfl

theorem requestsIssued_cons_throttle (q : ℚ) (l : List Event) :
    requestsIssued (Event.throttle q :: l) = requestsIssued l := rfl

theorem requestsIssued_cons_request (ua : String) (l : List Event) :
    requestsIssued (Event.request ua :: l) = requestsIssued l + 1 := by
  simp [requestsIssued, requestUAs]

theorem requestsIssued_cons_backoff (q : ℚ) (l : List Event) :
    requestsIssued (Event.backoff q :: l) = requestsIssued l := rfl

theorem requestsIssued_nil : requestsIssued [] = 0 := rfl

theorem fetchLoop_all429 (cfg : FetchCfg) (b : Nat → String)
    (h : ∀ i, cfg.oracle i = AttemptResult.resp 429 (b i)) :
    ∀ fuel attempt count,
      (fetchLoop cfg fuel attempt count).1 = none ∧
      (fetchLoop cfg fuel attempt count).2.1 = count + fuel ∧
      backoffSleeps (fetchLoop cfg fuel attempt count).2.2 =
        (List.range' (attempt + 1) fuel).map (fun k : Nat => (60 : ℚ) * (k : ℚ)) ∧
      requestsIssued (fetchLoop cfg fuel attempt count).2.2 = fuel := by
  intro fuel
  induction fuel with
  | zero =>
    intro attempt count
    exact ⟨rfl, rfl, rfl, rfl⟩
  | succ f ih =>
    intro attempt count
    have h0 := h attempt
    obtain ⟨ih1, ih2, ih3, ih4⟩ := ih (attempt + 1) (count + 1)
    simp only [fetchLoop, h0]
    norm_num
    refine ⟨ih1, by omega, ?_, ?_⟩
    · simp only [backoffSleeps_append, backoffSleeps_check_rate_limit, List.nil_append,
        backoffSleeps_cons_request, backoffSleeps_cons_backoff, ih3, List.range'_succ,
        List.map_cons]
      push_cast
      ring_nf
    · simp only [requestsIssued_append, requestsIssued_check_rate_limit,
        requestsIssued_cons_request, requestsIssued_cons_backoff, requestsIssued_nil, ih4]
      omega

theorem requestsIssued_ite_backoff (c : Prop) [Decidable c] (q : ℚ) :
    requestsIssued (if c then [Event.backoff q] else []) = 0 := by
  split <;> rfl

theorem respCount_succ (o : Nat → AttemptResult) (n : Nat) :
    respCount o (n + 1) =
      (if isHttpResp (o 0) then 1 else 0) + respCount (fun i => o (i + 1)) n := rfl

theorem fetchLoop_first_terminal (cfg : FetchCfg) (s : Nat) (body : String)
    (hs : s = 200 ∨ s = 403) :
    ∀ n fuel attempt count, n < fuel →
      cfg.oracle (attempt + n) = AttemptResult.resp s body →
      (∀ i, i < n → nonTerminal (cfg.oracle (attempt + i))) →
      (fetchLoop cfg fuel attempt count).1 = (if s = 200 then some body else none) ∧
      (fetchLoop cfg fuel attempt count).2.1 =
        count + respCount (fun i => cfg.oracle (attempt + i)) (n + 1) ∧
      requestsIssued (fetchLoop cfg fuel attempt count).2.2 = n + 1 := by
  intro n
  induction n with
  | zero =>
    intro fuel attempt count hn h0 _
    obtain ⟨f, rfl⟩ : ∃ f, fuel = f + 1 := ⟨fuel - 1, by omega⟩
    rw [Nat.add_zero] at h0
    have hresp : respCount (fun i => cfg.oracle (attempt + i)) 1 = 1 := by
      simp [respCount_succ, respCount, Nat.add_zero, h0, isHttpResp]
    rcases hs with rfl | rfl
    · simp only [fetchLoop, h0]
      norm_num [hresp]
      simp [requestsIssued_append, requestsIssued_check_rate_limit,
        requestsIssued_cons_request, requestsIssued_nil]
    · simp only [fetchLoop, h0]
      norm_num [hresp]
      simp [requestsIssued_append, requestsIssued_check_rate_limit,
        requestsIssued_cons_request, requestsIssued_nil]
  | succ m ih =>
    intro fuel attempt count hn h0 hnt
    obtain ⟨f, rfl⟩ : ∃ f, fuel = f + 1 := ⟨fuel - 1, by omega⟩
    have hf : m < f := by omega
    have hnt0 := hnt 0 (Nat.succ_pos m)
    rw [Nat.add_zero] at hnt0
    have h0' : cfg.oracle (attempt + 1 + m) = AttemptResult.resp s body := by
      rw [show attempt + 1 + m = attempt + (m + 1) by omega]
      exact h0
    have hnt' : ∀ i, i < m → nonTerminal (cfg.oracle (attempt + 1 + i)) := by
      intro i hi
      rw [show attempt + 1 + i = attempt + (i + 1) by omega]
      exact hnt (i + 1) (by omega)
    have hshift : (fun i => cfg.oracle (attempt + (i + 1))) =
        (fun i => cfg.oracle (attempt + 1 + i)) := by
      funext i
      rw [show attempt + (i + 1) = attempt + 1 + i by omega]
    cases hor : cfg.oracle attempt with
    | resp st b =>
      have hst : st ≠ 200 ∧ st ≠ 403 := by
        have := hnt0
        rw [hor] at this
        exact this
      have hresp : respCount (fun i => cfg.oracle (attempt + i)) (m + 1 + 1) =
          1 + respCount (fun i => cfg.oracle (attempt + 1 + i)) (m + 1) := by
        rw [respCount_succ]
        simp only [Nat.add_zero, hor, isHttpResp, if_pos, hshift]
      obtain ⟨ih1, ih2, ih3⟩ := ih f (attempt + 1) (count + 1) hf h0' hnt'
      simp only [fetchLoop, hor, if_neg hst.1]
      by_cases h429 : st = 429
      · simp only [if_pos h429]
        refine ⟨ih1, by rw [ih2, hresp]; omega, ?_⟩
        simp only [requestsIssued_append, requestsIssued_check_rate_limit,
          requestsIssued_cons_request, requestsIssued_cons_backoff, requestsIssued_nil, ih3]
        omega
      · simp only [if_neg h429, if_neg hst.2]
        by_cases h45 : 400 ≤ st ∧ st < 600
        · simp only [if_pos h45]
          refine ⟨ih1, by rw [ih2, hresp]; omega, ?_⟩
          simp only [requestsIssued_append, requestsIssued_check_rate_limit,
            requestsIssued_ite_backoff, requestsIssued_cons_request, requestsIssued_nil, ih3]
          omega
        · simp only [if_neg h45]
          refine ⟨ih1, by rw [ih2, hresp]; omega, ?_⟩
          simp only [requestsIssued_append, requestsIssued_check_rate_limit,
            requestsIssued_cons_request, requestsIssued_nil, ih3]
          omega
    | timeout =>
      have hresp : respCount (fun i => cfg.oracle (attempt + i)) (m + 1 + 1) =
          respCount (fun i => cfg.oracle (attempt + 1 + i)) (m + 1) := by
        rw [respCount_succ]
        simp [Nat.add_zero, hor, isHttpResp, hshift]
      obtain ⟨ih1, ih2, ih3⟩ := ih f (attempt + 1) count hf h0' hnt'
      simp only [fetchLoop, hor]
      refine ⟨ih1, by rw [ih2, hresp], ?_⟩
      simp only [requestsIssued_append, requestsIssued_check_rate_limit,
        requestsIssued_ite_backoff, requestsIssued_cons_request, requestsIssued_nil, ih3]
      omega
    | connError =>
      have hresp : respCount (fun i => cfg.oracle (attempt + i)) (m + 1 + 1) =
          respCount (fun i => cfg.oracle (attempt + 1 + i)) (m + 1) := by
        rw [respCount_succ]
        simp [Nat.add_zero, hor, isHttpResp, hshift]
      obtain ⟨ih1, ih2, ih3⟩ := ih f (attempt + 1) count hf h0' hnt'
      simp only [fetchLoop, hor]
      refine ⟨ih1, by rw [ih2, hresp], ?_⟩
      simp only [requestsIssued_append, requestsIssued_check_rate_limit,
        requestsIssued_ite_backoff, requestsIssued_cons_request, requestsIssued_nil, ih3]
      omega
    | reqError =>
      have hresp : respCount (fun i => cfg.oracle (attempt + i)) (m + 1 + 1) =
          respCount (fun i => cfg.oracle (attempt + 1 + i)) (m + 1) := by
        rw [respCount_succ]
        simp [Nat.add_zero, hor, isHttpResp, hshift]
      obtain ⟨ih1, ih2, ih3⟩ := ih f (attempt + 1) count hf h0' hnt'
      simp only [fetchLoop, hor]
      refine ⟨ih1, by rw [ih2, hresp], ?_⟩
      simp only [requestsIssued_append, requestsIssued_check_rate_limit,
        requestsIssued_ite_backoff, requestsIssued_cons_request, requestsIssued_nil, ih3]
      omega

/-! ### Claim theorems -/

/-- Claim C1: for every attempt sequence in which every attempt of
`fetch_page` receives an HTTP 429 response, `fetch_page` makes exactly
`max_retries` attempts and then reports exhaustion by returning the failure
outcome `none`, and the backoff waits are `60 * k` seconds for
`k = 1, ..., max_retries`. -/
theorem fetch_all_429_exhaustion (cfg : FetchCfg) (b : Nat → String) (count : Nat)
    (h : ∀ i, cfg.oracle i = AttemptResult.resp 429 (b i)) :
    (fetch_page cfg count).1 = none ∧
    requestsIssued (fetch_page cfg count).2.2 = cfg.maxRetries ∧
    backoffSleeps (fetch_page cfg count).2.2 =
      (List.range' 1 cfg.maxRetries).map (fun k : Nat => (60 : ℚ) * (k : ℚ)) := by
  obtain ⟨h1, _, h3, h4⟩ := fetchLoop_all429 cfg b h cfg.maxRetries 0 count
  refine ⟨h1, h4, ?_⟩
  simpa using h3

/-- Witness for C1: the all-429 run with `max_retries = 3` exhausts after
3 attempts with backoff waits 60, 120, 180 seconds. -/
theorem fetch_all_429_exhaustion_witness :
    (fetch_page cfg429run 0).1 = none ∧
    requestsIssued (fetch_page cfg429run 0).2.2 = cfg429run.maxRetries ∧
    backoffSleeps (fetch_page cfg429run 0).2.2 =
      (List.range' 1 cfg429run.maxRetries).map (fun k : Nat => (60 : ℚ) * (k : ℚ)) :=
  fetch_all_429_exhaustion cfg429run (fun _ => "") 0 (fun _ => rfl)

/-- Claim C2 counterexample: with `max_retries = 2` and the attempt sequence
[timeout, 200], `fetch_page` succeeds after making 2 attempts, but the
request counter increases by 1, not by the number of attempts made: line 105
`self.request_count += 1` runs only after `session.get` returns, so the
timed-out attempt never increments the counter. -/
theorem fetch_counter_misses_exception_attempts_cex :
    (fetch_page cfgTimeoutThen200 0).1 = some "ok" ∧
    requestsIssued (fetch_page cfgTimeoutThen200 0).2.2 = 2 ∧
    (fetch_page cfgTimeoutThen200 0).2.1 = 1 ∧
    (fetch_page cfgTimeoutThen200 0).2.1 ≠ 2 :=
  ⟨rfl, rfl, rfl, by decide⟩

/-- Claim C2 (amended): for every attempt sequence that ends in an HTTP 200
response within the retry budget, `fetch_page` returns the response body as
success, and the session's cumulative request counter increases by exactly
the number of attempts that received an HTTP response; attempts on which
`session.get` raised a timeout, connection error or other request error do
not increment it. -/
theorem fetch_success_counter_counts_http_responses (cfg : FetchCfg) (body : String)
    (n count : Nat) (hn : n < cfg.maxRetries)
    (h200 : cfg.oracle n = AttemptResult.resp 200 body)
    (hnt : ∀ i, i < n → nonTerminal (cfg.oracle i)) :
    (fetch_page cfg count).1 = some body ∧
    (fetch_page cfg count).2.1 = count + respCount cfg.oracle (n + 1) ∧
    requestsIssued (fetch_page cfg count).2.2 = n + 1 := by
  obtain ⟨h1, h2, h3⟩ := fetchLoop_first_terminal cfg 200 body (Or.inl rfl) n
    cfg.maxRetries 0 count hn (by simpa using h200) (by intro i hi; simpa using hnt i hi)
  have hfun : (fun i => cfg.oracle (0 + i)) = cfg.oracle := funext fun i => by
    rw [Nat.zero_add]
  rw [hfun] at h2
  exact ⟨by simpa using h1, h2, h3⟩

/-- Witness for C2 (amended): an immediate 200 response returns its body with
the counter advanced by the one response received. -/
theorem fetch_success_counter_counts_http_responses_witness :
    (fetch_page cfg200run 0).1 = some "ok" ∧
    (fetch_page cfg200run 0).2.1 = 0 + respCount cfg200run.oracle 1 ∧
    requestsIssued (fetch_page cfg200run 0).2.2 = 1 :=
  fetch_success_counter_counts_http_responses cfg200run "ok" 0 0 (by decide) rfl
    (fun i hi => absurd hi (Nat.not_lt_zero i))

/-- Claim C3: a 403 response at any attempt number makes `fetch_page` return
the failure outcome `none` immediately: the attempt that received the 403 is
the last one, so no retry follows and no further HTTP request is issued. -/
theorem fetch_403_aborts_immediately (cfg : FetchCfg) (body : String)
    (n count : Nat) (hn : n < cfg.maxRetries)
    (h403 : cfg.oracle n = AttemptResult.resp 403 body)
    (hnt : ∀ i, i < n → nonTerminal (cfg.oracle i)) :
    (fetch_page cfg count).1 = none ∧
    requestsIssued (fetch_page cfg count).2.2 = n + 1 := by
  obtain ⟨h1, _, h3⟩ := fetchLoop_first_terminal cfg 403 body (Or.inr rfl) n
    cfg.maxRetries 0 count hn (by simpa using h403) (by intro i hi; simpa using hnt i hi)
  refine ⟨?_, h3⟩
  simpa using h1

/-- Witness for C3: an immediate 403 returns the failure outcome after
exactly one request. -/
theorem fetch_403_aborts_immediately_witness :
    (fetch_page cfg403run 0).1 = none ∧
    requestsIssued (fetch_page cfg403run 0).2.2 = 0 + 1 :=
  fetch_403_aborts_immediately cfg403run "" 0 0 (by decide) rfl
    (fun i hi => absurd hi (Nat.not_lt_zero i))

theorem fetchLoop_success_from_200 (cfg : FetchCfg) (body : String) :
    ∀ fuel attempt count, (fetchLoop cfg fuel attempt count).1 = some body →
      ∃ i, i < fuel ∧ cfg.oracle (attempt + i) = AttemptResult.resp 200 body := by
  intro fuel
  induction fuel with
  | zero =>
    intro attempt count h
    exact absurd h (by simp [fetchLoop])
  | succ f ih =>
    intro attempt count h
    cases hor : cfg.oracle attempt with
    | resp st b =>
      by_cases h200 : st = 200
      · refine ⟨0, Nat.succ_pos f, ?_⟩
        simp only [fetchLoop, hor, if_pos h200] at h
        rw [Nat.add_zero, hor, h200, Option.some_inj.mp h]
      · by_cases h429 : st = 429
        · simp only [fetchLoop, hor, if_neg h200, if_pos h429] at h
          obtain ⟨i, hi, hoi⟩ := ih (attempt + 1) (count + 1) h
          refine ⟨i + 1, by omega, ?_⟩
          rw [show attempt + (i + 1) = attempt + 1 + i by omega]
          exact hoi
        · by_cases h403 : st = 403
          · simp only [fetchLoop, hor, if_neg h200, if_neg h429, if_pos h403] at h
            exact absurd h (by simp)
          · by_cases h45 : 400 ≤ st ∧ st < 600
            · simp only [fetchLoop, hor, if_neg h200, if_neg h429, if_neg h403,
                if_pos h45] at h
              obtain ⟨i, hi, hoi⟩ := ih (attempt + 1) (count + 1) h
              refine ⟨i + 1, by omega, ?_⟩
              rw [show attempt + (i + 1) = attempt + 1 + i by omega]
              exact hoi
            · simp only [fetchLoop, hor, if_neg h200, if_neg h429, if_neg h403,
                if_neg h45] at h
              obtain ⟨i, hi, hoi⟩ := ih (attempt + 1) (count + 1) h
              refine ⟨i + 1, by omega, ?_⟩
              rw [show attempt + (i + 1) = attempt + 1 + i by omega]
              exact hoi
    | timeout =>
      simp only [fetchLoop, hor] at h
      obtain ⟨i, hi, hoi⟩ := ih (attempt + 1) count h
      refine ⟨i + 1, by omega, ?_⟩
      rw [show attempt + (i + 1) = attempt + 1 + i by omega]
      exact hoi
    | connError =>
      simp only [fetchLoop, hor] at h
      obtain ⟨i, hi, hoi⟩ := ih (attempt + 1) count h
      refine ⟨i + 1, by omega, ?_⟩
      rw [show attempt + (i + 1) = attempt + 1 + i by omega]
      exact hoi
    | reqError =>
      simp only [fetchLoop, hor] at h
      obtain ⟨i, hi, hoi⟩ := ih (attempt + 1) count h
      refine ⟨i + 1, by omega, ?_⟩
      rw [show attempt + (i + 1) = attempt + 1 + i by omega]
      exact hoi

/-- Claim C4 counterexample: the forbidden outcome and the exhaustion
outcome are the same value `none`, carrying no HTTP status and no exception:
the caller of `fetch_page` cannot distinguish an immediate 403 from
exhausted retries. -/
theorem fetch_outcome_indistinguishable_cex :
    (fetch_page cfg403run 0).1 = none ∧
    (fetch_page cfg429run 0).1 = none ∧
    (fetch_page cfg403run 0).1 = (fetch_page cfg429run 0).1 :=
  ⟨rfl, rfl, rfl⟩

/-- Claim C4 (amended): a Fetch Outcome is either the raw body of an HTTP
200 response (success) or the bare failure marker `none`, which carries no
status or exception — so the forbidden and exhaustion outcomes are not
distinguishable to the caller. -/
theorem fetch_outcome_model (cfg : FetchCfg) (count : Nat) :
    (fetch_page cfg count).1 = none ∨
    ∃ body, (fetch_page cfg count).1 = some body ∧
      ∃ i, i < cfg.maxRetries ∧ cfg.oracle i = AttemptResult.resp 200 body := by
  cases h : (fetch_page cfg count).1 with
  | none => exact Or.inl rfl
  | some body =>
    refine Or.inr ⟨body, rfl, ?_⟩
    obtain ⟨i, hi, hoi⟩ := fetchLoop_success_from_200 cfg body cfg.maxRetries 0 count h
    exact ⟨i, hi, by simpa using hoi⟩

theorem fetchLoop_all_fallthrough (cfg : FetchCfg) (s : Nat) (b : Nat → String)
    (hs200 : s ≠ 200) (hs429 : s ≠ 429) (hs403 : s ≠ 403)
    (hs45 : ¬(400 ≤ s ∧ s < 600))
    (h : ∀ i, cfg.oracle i = AttemptResult.resp s (b i)) :
    ∀ fuel attempt count,
      (fetchLoop cfg fuel attempt count).1 = none ∧
      (fetchLoop cfg fuel attempt count).2.1 = count + fuel ∧
      backoffSleeps (fetchLoop cfg fuel attempt count).2.2 = [] ∧
      requestsIssued (fetchLoop cfg fuel attempt count).2.2 = fuel := by
  intro fuel
  induction fuel with
  | zero =>
    intro attempt count
    exact ⟨rfl, rfl, rfl, rfl⟩
  | succ f ih =>
    intro attempt count
    have h0 := h attempt
    obtain ⟨ih1, ih2, ih3, ih4⟩ := ih (attempt + 1) (count + 1)
    simp only [fetchLoop, h0, if_neg hs200, if_neg hs429, if_neg hs403, if_neg hs45]
    refine ⟨ih1, by omega, ?_, ?_⟩
    · simp only [backoffSleeps_append, backoffSleeps_check_rate_limit, List.nil_append,
        backoffSleeps_cons_request, backoffSleeps_nil, ih3]
    · simp only [requestsIssued_append, requestsIssued_check_rate_limit,
        requestsIssued_cons_request, requestsIssued_nil, ih4]
      omega

/-- Claim C10: when every attempt receives a 2xx HTTP status other than 200
(for example 204), `raise_for_status` does not raise, so the loop neither
returns success nor sleeps: each such response consumes one attempt of the
retry budget with no backoff, and after `max_retries` of them `fetch_page`
returns the failure outcome `none`. -/
theorem fetch_2xx_non_200_consumes_budget (cfg : FetchCfg) (s : Nat) (b : Nat → String)
    (count : Nat) (hs : 200 ≤ s ∧ s < 300 ∧ s ≠ 200)
    (h : ∀ i, cfg.oracle i = AttemptResult.resp s (b i)) :
    (fetch_page cfg count).1 = none ∧
    backoffSleeps (fetch_page cfg count).2.2 = [] ∧
    requestsIssued (fetch_page cfg count).2.2 = cfg.maxRetries ∧
    (fetch_page cfg count).2.1 = count + cfg.maxRetries := by
  obtain ⟨h1, h2, h3, h4⟩ := fetchLoop_all_fallthrough cfg s b hs.2.2
    (by omega) (by omega) (by omega) h cfg.maxRetries 0 count
  exact ⟨h1, h3, h4, h2⟩

/-- Witness for C10: an all-204 run with `max_retries = 3` issues 3 requests,
sleeps no backoff, and returns the failure outcome. -/
theorem fetch_2xx_non_200_consumes_budget_witness :
    (fetch_page cfg204run 0).1 = none ∧
    backoffSleeps (fetch_page cfg204run 0).2.2 = [] ∧
    requestsIssued (fetch_page cfg204run 0).2.2 = cfg204run.maxRetries ∧
    (fetch_page cfg204run 0).2.1 = 0 + cfg204run.maxRetries :=
  fetch_2xx_non_200_consumes_budget cfg204run 204 (fun _ => "") 0
    (by omega) (fun _ => rfl)

theorem rotate_user_agent_mem (pool : List String) (draw : Nat) (hpool : pool ≠ []) :
    rotate_user_agent pool draw ∈ pool := by
  have hlen : 0 < pool.length := List.length_pos.mpr hpool
  have hm : draw % pool.length < pool.length := Nat.mod_lt _ hlen
  rw [rotate_user_agent, List.getD_eq_getElem _ _ hm]
  exact List.getElem_mem hm

theorem request_not_mem_check_rate_limit (ua : String) (c : Nat) (e : ℚ) :
    Event.request ua ∉ check_rate_limit c e := by
  unfold check_rate_limit
  split
  · intro hmem
    rcases List.mem_singleton.mp hmem with h
    exact absurd h (by simp)
  · exact List.not_mem_nil _

theorem request_not_mem_ite_backoff (ua : String) (c : Prop) [Decidable c] (q : ℚ) :
    Event.request ua ∉ (if c then [Event.backoff q] else []) := by
  split
  · intro hmem
    rcases List.mem_singleton.mp hmem with h
    exact absurd h (by simp)
  · exact List.not_mem_nil _

theorem fetchLoop_count_mono (cfg : FetchCfg) :
    ∀ fuel attempt count, count ≤ (fetchLoop cfg fuel attempt count).2.1 := by
  intro fuel
  induction fuel with
  | zero =>
    intro attempt count
    exact Nat.le_refl count
  | succ f ih =>
    intro attempt count
    cases hor : cfg.oracle attempt with
    | resp st b =>
      by_cases h200 : st = 200
      · simp [fetchLoop, hor, h200]
      · by_cases h429 : st = 429
        · simp only [fetchLoop, hor, if_neg h200, if_pos h429]
          have := ih (attempt + 1) (count + 1)
          omega
        · by_cases h403 : st = 403
          · simp [fetchLoop, hor, if_neg h200, if_neg h429, h403]
          · by_cases h45 : 400 ≤ st ∧ st < 600
            · simp only [fetchLoop, hor, if_neg h200, if_neg h429, if_neg h403, if_pos h45]
              have := ih (attempt + 1) (count + 1)
              omega
            · simp only [fetchLoop, hor, if_neg h200, if_neg h429, if_neg h403, if_neg h45]
              have := ih (attempt + 1) (count + 1)
              omega
    | timeout =>
      simp only [fetchLoop, hor]
      exact ih (attempt + 1) count
    | connError =>
      simp only [fetchLoop, hor]
      exact ih (attempt + 1) count
    | reqError =>
      simp only [fetchLoop, hor]
      exact ih (attempt + 1) count

theorem request_mem_pre_elim (cfg : FetchCfg) (hpool : cfg.pool ≠ [])
    (attempt count : Nat) (ua : String)
    (h : Event.request ua ∈ check_rate_limit count (cfg.elapsed attempt) ++
      [Event.request (rotate_user_agent cfg.pool (cfg.uaDraw attempt))]) :
    ua ∈ cfg.pool := by
  rcases List.mem_append.mp h with h | h
  · exact absurd h (request_not_mem_check_rate_limit ua _ _)
  · have h' := List.mem_singleton.mp h
    have hua : ua = rotate_user_agent cfg.pool (cfg.uaDraw attempt) := by injection h'
    rw [hua]
    exact rotate_user_agent_mem cfg.pool _ hpool

theorem fetchLoop_request_ua_mem (cfg : FetchCfg) (hpool : cfg.pool ≠ []) :
    ∀ fuel attempt count ua,
      Event.request ua ∈ (fetchLoop cfg fuel attempt count).2.2 → ua ∈ cfg.pool := by
  intro fuel
  induction fuel with
  | zero =>
    intro attempt count ua hmem
    exact absurd hmem (List.not_mem_nil _)
  | succ f ih =>
    intro attempt count ua hmem
    cases hor : cfg.oracle attempt with
    | resp st b =>
      by_cases h200 : st = 200
      · simp only [fetchLoop, hor, if_pos h200] at hmem
        exact request_mem_pre_elim cfg hpool attempt count ua hmem
      · by_cases h429 : st = 429
        · simp only [fetchLoop, hor, if_neg h200, if_pos h429] at hmem
          rcases List.mem_append.mp hmem with h | h
          · rcases List.mem_append.mp h with h' | h'
            · exact request_mem_pre_elim cfg hpool attempt count ua h'
            · have h'' := List.mem_singleton.mp h'
              exact absurd h'' (by simp)
          · exact ih (attempt + 1) (count + 1) ua h
        · by_cases h403 : st = 403
          · simp only [fetchLoop, hor, if_neg h200, if_neg h429, if_pos h403] at hmem
            exact request_mem_pre_elim cfg hpool attempt count ua hmem
          · by_cases h45 : 400 ≤ st ∧ st < 600
            · simp only [fetchLoop, hor, if_neg h200, if_neg h429, if_neg h403,
                if_pos h45] at hmem
              rcases List.mem_append.mp hmem with h | h
              · rcases List.mem_append.mp h with h' | h'
                · exact request_mem_pre_elim cfg hpool attempt count ua h'
                · exact absurd h' (request_not_mem_ite_backoff ua _ _)
              · exact ih (attempt + 1) (count + 1) ua h
            · simp only [fetchLoop, hor, if_neg h200, if_neg h429, if_neg h403,
                if_neg h45] at hmem
              rcases List.mem_append.mp hmem with h | h
              · exact request_mem_pre_elim cfg hpool attempt count ua h
              · exact ih (attempt + 1) (count + 1) ua h
    | timeout =>
      simp only [fetchLoop, hor] at hmem
      rcases List.mem_append.mp hmem with h | h
      · rcases List.mem_append.mp h with h' | h'
        · exact request_mem_pre_elim cfg hpool attempt count ua h'
        · exact absurd h' (request_not_mem_ite_backoff ua _ _)
      · exact ih (attempt + 1) count ua h
    | connError =>
      simp only [fetchLoop, hor] at hmem
      rcases List.mem_append.mp hmem with h | h
      · rcases List.mem_append.mp h with h' | h'
        · exact request_mem_pre_elim cfg hpool attempt count ua h'
        · exact absurd h' (request_not_mem_ite_backoff ua _ _)
      · exact ih (attempt + 1) count ua h
    | reqError =>
      simp only [fetchLoop, hor] at hmem
      rcases List.mem_append.mp hmem with h | h
      · rcases List.mem_append.mp h with h' | h'
        · exact request_mem_pre_elim cfg hpool attempt count ua h'
        · exact absurd h' (request_not_mem_ite_backoff ua _ _)
      · exact ih (attempt + 1) count ua h

/-- Claim C8: over any sequence of `fetch_page` calls on one session the
cumulative request counter never decreases, and the user agent of every
issued request is freshly drawn from the user-agent pool (by
`_rotate_user_agent`, called immediately before each request). -/
theorem session_count_monotone_and_ua_from_pool :
    (∀ (calls : List FetchCfg) (count : Nat), count ≤ sessionRun calls count) ∧
    (∀ (cfg : FetchCfg) (count : Nat) (ua : String), cfg.pool ≠ [] →
      Event.request ua ∈ (fetch_page cfg count).2.2 → ua ∈ cfg.pool) := by
  constructor
  · intro calls
    induction calls with
    | nil =>
      intro count
      exact Nat.le_refl count
    | cons cfg rest ih =>
      intro count
      calc count ≤ (fetch_page cfg count).2.1 := fetchLoop_count_mono cfg cfg.maxRetries 0 count
        _ ≤ sessionRun rest (fetch_page cfg count).2.1 := ih _
        _ = sessionRun (cfg :: rest) count := rfl
  · intro cfg count ua hpool hmem
    exact fetchLoop_request_ua_mem cfg hpool cfg.maxRetries 0 count ua hmem

/-- Witness for C8: a one-call session with an immediate 403 — the counter
does not decrease and the single request's user agent is in the pool. -/
theorem session_count_monotone_and_ua_from_pool_witness :
    (0 ≤ sessionRun [cfg403run] 0) ∧ userAgents ≠ [] ∧
    Event.request (rotate_user_agent userAgents 0) ∈ (fetch_page cfg403run 0).2.2 ∧
    rotate_user_agent userAgents 0 ∈ userAgents := by
  have hpool : userAgents ≠ [] := by simp [userAgents]
  have hmem : Event.request (rotate_user_agent userAgents 0) ∈ (fetch_page cfg403run 0).2.2 :=
    List.mem_cons_self _ _
  exact ⟨session_count_monotone_and_ua_from_pool.1 [cfg403run] 0, hpool, hmem,
    session_count_monotone_and_ua_from_pool.2 cfg403run 0 _ hpool hmem⟩

/-- Claim C9: before each fetch attempt the controller computes the observed
request rate as the cumulative request count over the elapsed time since
session start, and when that rate exceeds the 0.5 requests-per-second
ceiling it inserts a flat 2-second pause (a constant extra delay, not a
computed wait): every iteration's event trace begins with exactly the events
of this check. -/
theorem throttle_check_before_each_attempt (cfg : FetchCfg) (fuel attempt count : Nat) :
    ∃ rest, (fetchLoop cfg (fuel + 1) attempt count).2.2 =
      (if 0 < cfg.elapsed attempt ∧
          (1 : ℚ) / 2 < (count : ℚ) / cfg.elapsed attempt then
        [Event.throttle 2]
      else
        []) ++ rest := by
  have key : ∃ rest, (fetchLoop cfg (fuel + 1) attempt count).2.2 =
      check_rate_limit count (cfg.elapsed attempt) ++ rest := by
    cases hor : cfg.oracle attempt with
    | resp st b =>
      by_cases h200 : st = 200
      · exact ⟨[Event.request (rotate_user_agent cfg.pool (cfg.uaDraw attempt))],
          by simp only [fetchLoop, hor, if_pos h200]⟩
      · by_cases h429 : st = 429
        · refine ⟨Event.request (rotate_user_agent cfg.pool (cfg.uaDraw attempt)) ::
            Event.backoff ((60 : ℚ) * ((attempt : ℚ) + 1)) ::
            (fetchLoop cfg fuel (attempt + 1) (count + 1)).2.2, ?_⟩
          simp only [fetchLoop, hor, if_neg h200, if_pos h429]
          simp [List.append_assoc]
        · by_cases h403 : st = 403
          · exact ⟨[Event.request (rotate_user_agent cfg.pool (cfg.uaDraw attempt))],
              by simp only [fetchLoop, hor, if_neg h200, if_neg h429, if_pos h403]⟩
          · by_cases h45 : 400 ≤ st ∧ st < 600
            · refine ⟨Event.request (rotate_user_agent cfg.pool (cfg.uaDraw attempt)) ::
                ((if attempt < cfg.maxRetries - 1 then
                  [Event.backoff ((5 : ℚ) * ((attempt : ℚ) + 1))] else []) ++
                (fetchLoop cfg fuel (attempt + 1) (count + 1)).2.2), ?_⟩
              simp only [fetchLoop, hor, if_neg h200, if_neg h429, if_neg h403, if_pos h45]
              simp [List.append_assoc]
            · refine ⟨Event.request (rotate_user_agent cfg.pool (cfg.uaDraw attempt)) ::
                (fetchLoop cfg fuel (attempt + 1) (count + 1)).2.2, ?_⟩
              simp only [fetchLoop, hor, if_neg h200, if_neg h429, if_neg h403, if_neg h45]
              simp [List.append_assoc]
    | timeout =>
      refine ⟨Event.request (rotate_user_agent cfg.pool (cfg.uaDraw attempt)) ::
        ((if attempt < cfg.maxRetries - 1 then
          [Event.backoff ((5 : ℚ) * ((attempt : ℚ) + 1))] else []) ++
        (fetchLoop cfg fuel (attempt + 1) count).2.2), ?_⟩
      simp only [fetchLoop, hor]
      simp [List.append_assoc]
    | connError =>
      refine ⟨Event.request (rotate_user_agent cfg.pool (cfg.uaDraw attempt)) ::
        ((if attempt < cfg.maxRetries - 1 then
          [Event.backoff ((10 : ℚ) * ((attempt : ℚ) + 1))] else []) ++
        (fetchLoop cfg fuel (attempt + 1) count).2.2), ?_⟩
      simp only [fetchLoop, hor]
      simp [List.append_assoc]
    | reqError =>
      refine ⟨Event.request (rotate_user_agent cfg.pool (cfg.uaDraw attempt)) ::
        ((if attempt < cfg.maxRetries - 1 then
          [Event.backoff ((5 : ℚ) * ((attempt : ℚ) + 1))] else []) ++
        (fetchLoop cfg fuel (attempt + 1) count).2.2), ?_⟩
      simp only [fetchLoop, hor]
      simp [List.append_assoc]
  obtain ⟨rest, hr⟩ := key
  exact ⟨rest, by rw [hr]; rfl⟩

theorem scrapeLoop_all_ok (pr : Nat → PageOutcome) (dd : Nat → ℚ) (endPage : Nat)
    (recs : Nat → List Record) :
    ∀ fuel page, page + fuel = endPage + 1 →
      (∀ p, page ≤ p → p ≤ endPage → pr p = PageOutcome.ok (recs p)) →
      scrapeLoop pr dd endPage fuel page =
        (((List.range' page fuel).map recs).flatten,
          (List.range' page (fuel - 1)).map dd) := by
  intro fuel
  induction fuel with
  | zero =>
    intro page _ _
    simp [scrapeLoop]
  | succ f ih =>
    intro page hpe hok
    have hok0 : pr page = PageOutcome.ok (recs page) := hok page le_rfl (by omega)
    have ihr := ih (page + 1) (by omega) (fun p hp1 hp2 => hok p (by omega) hp2)
    simp only [scrapeLoop, hok0, ihr]
    cases f with
    | zero =>
      have hnot : ¬page < endPage := by omega
      simp [hnot, List.range'_succ]
    | succ g =>
      have hlt : page < endPage := by omega
      simp [hlt, List.range'_succ]

/-- Claim C5: over a page range `[a, b]` with `a ≤ b` in which every page
succeeds, `scrape_multiple_pages a b` returns the concatenation, in page
order, of the records of each page, and inserts exactly `b - a` inter-page
politeness delays — one after each page except the last — each equal to a
`random.uniform` draw from the configured delay range and hence within
`[dmin, dmax]`. -/
theorem scrape_range_all_ok (pr : Nat → PageOutcome) (dd : Nat → ℚ)
    (recs : Nat → List Record) (a b : Nat) (dmin dmax : ℚ)
    (hab : a ≤ b)
    (hok : ∀ p, a ≤ p → p ≤ b → pr p = PageOutcome.ok (recs p))
    (hdd : ∀ i, dmin ≤ dd i ∧ dd i ≤ dmax) :
    (scrape_multiple_pages pr dd a b).1 = ((List.range' a (b + 1 - a)).map recs).flatten ∧
    (scrape_multiple_pages pr dd a b).2 = (List.range' a (b - a)).map dd ∧
    (scrape_multiple_pages pr dd a b).2.length = b - a ∧
    ∀ q ∈ (scrape_multiple_pages pr dd a b).2, dmin ≤ q ∧ q ≤ dmax := by
  have h := scrapeLoop_all_ok pr dd b recs (b + 1 - a) a (by omega) hok
  rw [scrape_multiple_pages, h]
  have hsub : b + 1 - a - 1 = b - a := by omega
  rw [hsub]
  refine ⟨rfl, rfl, by simp, ?_⟩
  intro q hq
  obtain ⟨i, _, rfl⟩ := List.mem_map.mp hq
  exact hdd i

/-- Witness for C5: pages 1-3 all succeeding with one record each and a
constant draw of 3 seconds from the range `[3, 6]`. -/
theorem scrape_range_all_ok_witness :
    (scrape_multiple_pages prOk (fun _ => 3) 1 3).1 =
      ((List.range' 1 (3 + 1 - 1)).map recsW).flatten ∧
    (scrape_multiple_pages prOk (fun _ => 3) 1 3).2 =
      (List.range' 1 (3 - 1)).map (fun _ => (3 : ℚ)) ∧
    (scrape_multiple_pages prOk (fun _ => 3) 1 3).2.length = 3 - 1 ∧
    ∀ q ∈ (scrape_multiple_pages prOk (fun _ => 3) 1 3).2, (3 : ℚ) ≤ q ∧ q ≤ 6 :=
  scrape_range_all_ok prOk (fun _ => 3) recsW 1 3 3 6 (by omega)
    (fun p _ _ => rfl) (fun _ => ⟨le_refl 3, by norm_num⟩)

theorem scrapeLoop_interrupt (pr : Nat → PageOutcome) (dd : Nat → ℚ) (endPage : Nat)
    (recs : Nat → List Record) (p : Nat) (hp : pr p = PageOutcome.interrupted) :
    ∀ fuel page, page + fuel = endPage + 1 → page ≤ p → p ≤ endPage →
      (∀ q, page ≤ q → q < p → pr q = PageOutcome.ok (recs q)) →
      (scrapeLoop pr dd endPage fuel page).1 =
        ((List.range' page (p - page)).map recs).flatten := by
  intro fuel
  induction fuel with
  | zero =>
    intro page h1 h2 h3 _
    exact absurd (h2.trans h3) (by omega)
  | succ f ih =>
    intro page h1 h2 h3 hok
    by_cases hpp : page = p
    · subst hpp
      simp [scrapeLoop, hp]
    · have hlt : page < p := by omega
      have hok0 := hok page le_rfl hlt
      simp only [scrapeLoop, hok0]
      have ihr := ih (page + 1) (by omega) (by omega) h3
        (fun q hq1 hq2 => hok q (by omega) hq2)
      have hsub : p - page = (p - (page + 1)) + 1 := by omega
      rw [hsub, List.range'_succ, List.map_cons, List.flatten_cons]
      simpa using ihr

theorem scrapeLoop_one_failed (pr : Nat → PageOutcome) (dd : Nat → ℚ) (endPage : Nat)
    (recs : Nat → List Record) (p : Nat) (hp : pr p = PageOutcome.failed) :
    ∀ fuel page, page + fuel = endPage + 1 →
      (∀ q, page ≤ q → q ≤ endPage → q ≠ p → pr q = PageOutcome.ok (recs q)) →
      (scrapeLoop pr dd endPage fuel page).1 =
        ((List.range' page fuel).map (fun q => if q = p then [] else recs q)).flatten := by
  intro fuel
  induction fuel with
  | zero =>
    intro page _ _
    simp [scrapeLoop]
  | succ f ih =>
    intro page h1 hok
    have ihr := ih (page + 1) (by omega) (fun q hq1 hq2 hq3 => hok q (by omega) hq2 hq3)
    by_cases hpp : page = p
    · subst hpp
      simp only [scrapeLoop, hp]
      rw [ihr, List.range'_succ, List.map_cons, List.flatten_cons]
      simp
    · have hok0 := hok page le_rfl (by omega) hpp
      simp only [scrapeLoop, hok0]
      rw [List.range'_succ, List.map_cons, List.flatten_cons]
      simpa [hpp] using ihr

/-- Claim C6: during `scrape_multiple_pages` over `[a, b]`, a
`KeyboardInterrupt` raised while processing page `p` returns, without
raising, the concatenation of the results of the pages completed strictly
before `p`; and a generic per-page exception at page `p` is caught and
contributes zero records for `p` while every other page of the range is
still processed. -/
theorem scrape_interrupt_and_page_error :
    (∀ (pr : Nat → PageOutcome) (dd : Nat → ℚ) (recs : Nat → List Record) (a b p : Nat),
      a ≤ p → p ≤ b → pr p = PageOutcome.interrupted →
      (∀ q, a ≤ q → q < p → pr q = PageOutcome.ok (recs q)) →
      (scrape_multiple_pages pr dd a b).1 = ((List.range' a (p - a)).map recs).flatten) ∧
    (∀ (pr : Nat → PageOutcome) (dd : Nat → ℚ) (recs : Nat → List Record) (a b p : Nat),
      a ≤ p → p ≤ b → pr p = PageOutcome.failed →
      (∀ q, a ≤ q → q ≤ b → q ≠ p → pr q = PageOutcome.ok (recs q)) →
      (scrape_multiple_pages pr dd a b).1 =
        ((List.range' a (b + 1 - a)).map (fun q => if q = p then [] else recs q)).flatten) := by
  constructor
  · intro pr dd recs a b p hap hpb hp hok
    exact scrapeLoop_interrupt pr dd b recs p hp (b + 1 - a) a (by omega) hap hpb hok
  · intro pr dd recs a b p hap hpb hp hok
    exact scrapeLoop_one_failed pr dd b recs p hp (b + 1 - a) a (by omega) hok

/-- Witness for C6: over pages 1-3, an interrupt at page 2 returns only
page 1's records, and a generic failure at page 2 yields the records of
pages 1 and 3 with page 2 contributing none. -/
theorem scrape_interrupt_and_page_error_witness :
    (scrape_multiple_pages prInterrupt (fun _ => 3) 1 3).1 =
      ((List.range' 1 (2 - 1)).map recsW).flatten ∧
    (scrape_multiple_pages prFailed (fun _ => 3) 1 3).1 =
      ((List.range' 1 (3 + 1 - 1)).map (fun q => if q = 2 then [] else recsW q)).flatten := by
  constructor
  · exact scrape_interrupt_and_page_error.1 prInterrupt (fun _ => 3) recsW 1 3 2
      (by omega) (by omega) rfl
      (fun q hq1 hq2 => by simp [prInterrupt, show q ≠ 2 by omega])
  · exact scrape_interrupt_and_page_error.2 prFailed (fun _ => 3) recsW 1 3 2
      (by omega) (by omega) rfl
      (fun q hq1 hq2 hq3 => by simp [prFailed, hq3])

/-- Claim C7: `parse_compounds` excludes every compound record with fewer
than 3 populated fields (each returned record has at least 3) and includes
the record of any item whose record has exactly 3 populated fields; tag
absence only leaves fields out of the record, it never aborts parsing. -/
theorem parse_compounds_validity_floor (baseUrl : String) (items : List PageItem) :
    (∀ r ∈ parse_compounds baseUrl items, 3 ≤ r.length) ∧
    (∀ item ∈ items, (build_compound_data baseUrl item).length = 3 →
      build_compound_data baseUrl item ∈ parse_compounds baseUrl items) := by
  constructor
  · intro r hr
    have h := (List.mem_filter.mp hr).2
    simpa using h
  · intro item hitem hlen
    apply List.mem_filter.mpr
    refine ⟨List.mem_map.mpr ⟨item, hitem, rfl⟩, ?_⟩
    simp [hlen]

/-- Witness for C7: of two concrete items, the one whose record has exactly
3 populated fields is returned; every returned record has at least 3. -/
theorem parse_compounds_validity_floor_witness :
    3 ≤ (build_compound_data base_url itemThreeFields).length ∧
    build_compound_data base_url itemThreeFields ∈
      parse_compounds base_url [itemTwoFields, itemThreeFields] := by
  have h := parse_compounds_validity_floor base_url [itemTwoFields, itemThreeFields]
  have hmem : build_compound_data base_url itemThreeFields ∈
      parse_compounds base_url [itemTwoFields, itemThreeFields] :=
    h.2 itemThreeFields (by simp) (by rfl)
  exact ⟨h.1 _ hmem, hmem⟩

end MceScraper
